import Mathlib

/-!
Shallow embedding of the repository's AES-256-GCM wrapper (src/src/lib.rs).

The repository's two functions, `encrypt_aes_256_gcm` and
`decrypt_aes_256_gcm`, are thin wrappers around the ring crate's
AES-256-GCM AEAD (`seal_in_place_append_tag` / `open_in_place`).
Bytes are modelled as `Nat` (values < 256 in practice), byte strings as
`List Nat`, and 128-bit blocks as `Nat`.  The cipher itself (AES-256 block
encryption, the GCM counter mode and the GHASH tag, exactly as ring
implements them for a 12-byte nonce, empty associated data and a 16-byte
tag) is embedded executably below.  A Rust panic (the `assert_eq!` on the
key length) and the `Unspecified` error are modelled by the three-valued
`Outcome` type.
-/

namespace AesImpl

set_option maxRecDepth 1000000

/-- Big-endian interpretation of a byte string as a natural number. -/
def bytesToNat (l : List Nat) : Nat := l.foldl (fun a b => a * 256 + b) 0

/-- The sixteen bytes of a 128-bit block, big-endian (most significant byte first). -/
def natToBytes16 (n : Nat) : List Nat :=
  (List.range 16).map (fun i => (n >>> (8 * (15 - i))) &&& 255)

/-- The AES S-box, packed into one natural number: the image of byte `i` sits at
bit offset `8 * i`. -/
def sboxTable : Nat :=
  0x16bb54b00f2d99416842e6bf0d89a18cdf2855cee9871e9b948ed9691198f8e19e1dc186b95735610ef6034866b53e708a8bbd4b1f74dde8c6b4a61c2e2578ba08ae7a65eaf4566ca94ed58d6d37c8e779e4959162acd3c25c2406490a3a32e0db0b5ede14b8ee4688902a22dc4f816073195d643d7ea7c41744975fec130ccdd2f3ff1021dab6bcf5389d928f40a351a89f3c507f02f94585334d43fbaaefd0cf584c4a39becb6a5bb1fc20ed00d153842fe329b3d63b52a05a6e1b1a2c830975b227ebe28012079a059618c323c7041531d871f1e5a534ccf73f362693fdb7c072a49cafa2d4adf04759fa7dc982ca76abd7fe2b670130c56f6bf27b777c63

/-- S-box lookup for one byte. -/
def sbox (b : Nat) : Nat := (sboxTable >>> (8 * (b &&& 255))) &&& 255

/-- Apply the S-box to each byte of a 32-bit word. -/
def subWord (w : Nat) : Nat :=
  (sbox ((w >>> 24) &&& 255) <<< 24) ||| (sbox ((w >>> 16) &&& 255) <<< 16) |||
  (sbox ((w >>> 8) &&& 255) <<< 8) ||| sbox (w &&& 255)

/-- Rotate a 32-bit word left by one byte. -/
def rotWord (w : Nat) : Nat := (((w <<< 8) ||| (w >>> 24)) &&& 0xffffffff)

/-- Round constant for the AES key schedule, as a 32-bit word. -/
def rconW (i : Nat) : Nat := (2 ^ (i - 1)) <<< 24

/-- The first eight 32-bit words of the key schedule, straight from the 32-byte key. -/
def initWords (key : List Nat) : List Nat :=
  (List.range 8).map (fun i => bytesToNat ((key.drop (4 * i)).take 4))

/-- Key-expansion loop; the accumulator holds the words generated so far in
reverse order. -/
def expandLoop : Nat → List Nat → List Nat
  | 0, ws => ws
  | n + 1, ws =>
    let i := ws.length
    let prev := ws.headD 0
    let w8 := ws.getD 7 0
    let temp :=
      if i % 8 == 0 then subWord (rotWord prev) ^^^ rconW (i / 8)
      else if i % 8 == 4 then subWord prev
      else prev
    expandLoop n ((w8 ^^^ temp) :: ws)

/-- All sixty 32-bit words of the AES-256 key schedule. -/
def keyWords (key : List Nat) : List Nat := (expandLoop 52 (initWords key).reverse).reverse

/-- The fifteen 128-bit round keys of AES-256. -/
def roundKeys (key : List Nat) : List Nat :=
  let ws := keyWords key
  (List.range 15).map (fun j =>
    (ws.getD (4 * j) 0 <<< 96) ||| (ws.getD (4 * j + 1) 0 <<< 64) |||
    (ws.getD (4 * j + 2) 0 <<< 32) ||| ws.getD (4 * j + 3) 0)

/-- Multiplication by x in GF(2^8) with the AES polynomial. -/
def xtime (b : Nat) : Nat :=
  if b &&& 0x80 ≠ 0 then ((b <<< 1) ^^^ 0x1b) &&& 0xff else (b <<< 1) &&& 0xff

/-- SubBytes on a 16-byte state. -/
def subBytes (st : List Nat) : List Nat := st.map sbox

/-- ShiftRows on a 16-byte column-major state. -/
def shiftRows (st : List Nat) : List Nat :=
  match st with
  | [a0, a1, a2, a3, b0, b1, b2, b3, c0, c1, c2, c3, d0, d1, d2, d3] =>
    [a0, b1, c2, d3, b0, c1, d2, a3, c0, d1, a2, b3, d0, a1, b2, c3]
  | _ => st

/-- MixColumns on one four-byte column. -/
def mixColumn (a b c d : Nat) : List Nat :=
  [xtime a ^^^ xtime b ^^^ b ^^^ c ^^^ d,
   a ^^^ xtime b ^^^ xtime c ^^^ c ^^^ d,
   a ^^^ b ^^^ xtime c ^^^ xtime d ^^^ d,
   xtime a ^^^ a ^^^ b ^^^ c ^^^ xtime d]

/-- MixColumns on the full 16-byte state. -/
def mixColumns (st : List Nat) : List Nat :=
  match st with
  | [a0, a1, a2, a3, b0, b1, b2, b3, c0, c1, c2, c3, d0, d1, d2, d3] =>
    mixColumn a0 a1 a2 a3 ++ mixColumn b0 b1 b2 b3 ++
    mixColumn c0 c1 c2 c3 ++ mixColumn d0 d1 d2 d3
  | _ => st

/-- AddRoundKey: xor the state with the bytes of a 128-bit round key. -/
def addRoundKey (st : List Nat) (rk : Nat) : List Nat :=
  List.zipWith Nat.xor st (natToBytes16 rk)

/-- One full middle round of AES. -/
def aesRound (rk : Nat) (st : List Nat) : List Nat :=
  addRoundKey (mixColumns (shiftRows (subBytes st))) rk

/-- The final AES round (no MixColumns). -/
def aesFinalRound (rk : Nat) (st : List Nat) : List Nat :=
  addRoundKey (shiftRows (subBytes st)) rk

/-- AES-256 encryption of one 128-bit block under the given round keys. -/
def aesEncBlock (rks : List Nat) (b : Nat) : Nat :=
  let st0 := addRoundKey (natToBytes16 b) (rks.headD 0)
  let mid := ((rks.drop 1).take 13).foldl (fun st rk => aesRound rk st) st0
  bytesToNat (aesFinalRound (rks.getD 14 0) mid)

/-- One hundred twenty-eight shift-and-xor steps of GF(2^128) multiplication,
GCM bit order. -/
def gfmulLoop : Nat → Nat → Nat → Nat → Nat
  | 0, _, _, z => z
  | n + 1, x, v, z =>
    let z' := if x.testBit 127 then z ^^^ v else z
    let v' := if v.testBit 0 then (v >>> 1) ^^^ (0xe1 <<< 120) else v >>> 1
    gfmulLoop n ((x <<< 1) &&& (2 ^ 128 - 1)) v' z'

/-- GF(2^128) multiplication as used by GHASH. -/
def gfmul (x y : Nat) : Nat := gfmulLoop 128 x y 0

/-- GHASH folding over a list of 128-bit blocks. -/
def ghashBlocks (h : Nat) (bs : List Nat) : Nat :=
  bs.foldl (fun y b => gfmul (y ^^^ b) h) 0

/-- A (possibly short, at most 16-byte) chunk as a 128-bit block, zero-padded
on the right. -/
def blockOfBytes (b : List Nat) : Nat := bytesToNat b <<< (8 * (16 - b.length))

/-- Split a byte string into 16-byte chunks as 128-bit blocks; the fuel bounds
the recursion. -/
def padChunks : Nat → List Nat → List Nat
  | 0, _ => []
  | _, [] => []
  | n + 1, l => blockOfBytes (l.take 16) :: padChunks n (l.drop 16)

/-- GHASH of a ciphertext with empty associated data: the padded ciphertext
blocks followed by the 128-bit length block (zero AAD bits, 8·len ciphertext
bits). -/
def ghashBytes (h : Nat) (c : List Nat) : Nat :=
  ghashBlocks h (padChunks c.length c ++ [8 * c.length])

/-- Increment the low 32 bits of a 128-bit counter block, leaving the rest alone. -/
def inc32 (j : Nat) : Nat :=
  ((j >>> 32) <<< 32) ||| (((j &&& 0xffffffff) + 1) &&& 0xffffffff)

/-- Initial counter block for a 12-byte nonce: nonce ∥ 0x00000001. -/
def j0 (nonce : List Nat) : Nat := (bytesToNat nonce <<< 32) ||| 1

/-- Number of 16-byte blocks covering `len` bytes. -/
def numBlocks (len : Nat) : Nat := (len + 15) / 16

/-- The CTR keystream blocks: encryptions of the successive increments of the
initial counter. -/
def ksBlocks (rks : List Nat) (j : Nat) : Nat → List Nat
  | 0 => []
  | n + 1 => aesEncBlock rks (inc32 j) :: ksBlocks rks (inc32 j) n

/-- Flatten 128-bit blocks into their bytes. -/
def flat16 : List Nat → List Nat
  | [] => []
  | b :: bs => natToBytes16 b ++ flat16 bs

/-- The first `len` bytes of the GCM keystream for the given key and nonce. -/
def keystream (key nonce : List Nat) (len : Nat) : List Nat :=
  (flat16 (ksBlocks (roundKeys key) (j0 nonce) (numBlocks len))).take len

/-- CTR encryption and decryption: xor the data with the keystream. -/
def ctrXor (key nonce bytes : List Nat) : List Nat :=
  List.zipWith Nat.xor bytes (keystream key nonce bytes.length)

/-- The 16-byte GCM authentication tag over a ciphertext (empty associated
data): GHASH under H = AES(0) masked with AES(J0). -/
def gcmTag (key nonce c : List Nat) : List Nat :=
  let rks := roundKeys key
  let h := aesEncBlock rks 0
  natToBytes16 (ghashBytes h c ^^^ aesEncBlock rks (j0 nonce))

/-- AES-256-GCM sealing: the CTR ciphertext with the 16-byte tag appended. -/
def gcmSeal (key nonce pt : List Nat) : List Nat :=
  let ct := ctrXor key nonce pt
  ct ++ gcmTag key nonce ct

/-- Largest input ring accepts for one AES-GCM nonce: (2^32 − 2) · 16 bytes. -/
def maxInputLen : Nat := (2 ^ 32 - 2) * 16

/-- Model of ring's `seal_in_place_append_tag` for AES-256-GCM with a 32-byte
key: it rejects oversized inputs and otherwise appends the tag to the CTR
ciphertext. -/
def ringSeal (key nonce pt : List Nat) : Option (List Nat) :=
  if pt.length > maxInputLen then none else some (gcmSeal key nonce pt)

/-- Model of ring's `open_in_place` for AES-256-GCM: fails on buffers shorter
than the tag, on oversized bodies, and on tag mismatch; on success the buffer
holds the decrypted body followed by the untouched 16-byte tag. -/
def ringOpen (key nonce c : List Nat) : Option (List Nat) :=
  if c.length < 16 then none
  else if c.length - 16 > maxInputLen then none
  else
    let body := c.take (c.length - 16)
    let tagPart := c.drop (c.length - 16)
    if gcmTag key nonce body = tagPart then some (ctrXor key nonce body ++ tagPart)
    else none

/-- Outcome of calling one of the repository's Rust functions: a panic (from
the `assert_eq!` on the key length), an `Err(Unspecified)` — a unit-like
error type, so one constructor — or a normal return. -/
inductive Outcome (α : Type) where
  | panicked : Outcome α
  | error : Outcome α
  | ok : α → Outcome α
deriving DecidableEq

/-- Whether an outcome is a normal return. -/
def Outcome.isOk {α : Type} : Outcome α → Bool
  | .ok _ => true
  | _ => false

/-- Length in bytes of a ring AES-GCM nonce. -/
def NONCE_LEN : Nat := 12

/-- Length in bytes of the AES-256-GCM authentication tag. -/
def TAG_LEN : Nat := 16

/-- Embedding of `encrypt_aes_256_gcm` (src/src/lib.rs lines 18–39).  The
`rand` argument is the outcome of `SystemRandom::new().fill(..)`: `none` when
the fill fails, `some r` with the drawn bytes otherwise.  The source asserts
the key length (panic on violation), draws the random bytes into a buffer,
then shadows the nonce with the constant `[12; NONCE_LEN]` which it both
seals with and returns. -/
def encrypt_aes_256_gcm (rand : Option (List Nat)) (key plaintext : List Nat) :
    Outcome (List Nat × List Nat) :=
  if key.length ≠ 32 then Outcome.panicked
  else
    match rand with
    | none => Outcome.error
    | some _r =>
      let nonce := List.replicate NONCE_LEN 12
      match ringSeal key nonce plaintext with
      | none => Outcome.error
      | some sealedBuf => Outcome.ok (sealedBuf, nonce)

/-- Embedding of `decrypt_aes_256_gcm` (src/src/lib.rs lines 52–72): assert the
key length (panic on violation), reject nonces that are not 12 bytes, run the
AEAD open in place, then return `in_out.split_off(in_out.len() - tag_len)` —
the trailing 16 bytes of the opened buffer. -/
def decrypt_aes_256_gcm (key nonce ciphertext : List Nat) : Outcome (List Nat) :=
  if key.length ≠ 32 then Outcome.panicked
  else if nonce.length ≠ NONCE_LEN then Outcome.error
  else
    match ringOpen key nonce ciphertext with
    | none => Outcome.error
    | some inOut => Outcome.ok (inOut.drop (inOut.length - TAG_LEN))

/-! Length lemmas and the structural behaviour of seal and open. -/

theorem length_natToBytes16 (n : Nat) : (natToBytes16 n).length = 16 := by
  simp [natToBytes16]

theorem length_flat16 (bs : List Nat) : (flat16 bs).length = 16 * bs.length := by
  induction bs with
  | nil => simp [flat16]
  | cons b bs ih => simp [flat16, length_natToBytes16, ih]; ring

theorem length_ksBlocks (rks : List Nat) (j m : Nat) : (ksBlocks rks j m).length = m := by
  induction m generalizing j with
  | zero => rfl
  | succ n ih => simp [ksBlocks, ih]

theorem le_16_mul_numBlocks (len : Nat) : len ≤ 16 * numBlocks len := by
  have h1 := Nat.div_add_mod (len + 15) 16
  have h2 : (len + 15) % 16 < 16 := Nat.mod_lt _ (by omega)
  unfold numBlocks
  omega

theorem length_keystream (key nonce : List Nat) (len : Nat) :
    (keystream key nonce len).length = len := by
  simp only [keystream, List.length_take, length_flat16, length_ksBlocks]
  exact Nat.min_eq_left (le_16_mul_numBlocks len)

theorem length_ctrXor (key nonce bs : List Nat) : (ctrXor key nonce bs).length = bs.length := by
  simp [ctrXor, List.length_zipWith, length_keystream]

theorem zipWith_xor_cancel (bs : List Nat) :
    ∀ ks : List Nat, bs.length ≤ ks.length →
      List.zipWith Nat.xor (List.zipWith Nat.xor bs ks) ks = bs := by
  induction bs with
  | nil => intro ks _; simp
  | cons b bs ih =>
    intro ks hlen
    cases ks with
    | nil => simp at hlen
    | cons k ks =>
      simp only [List.zipWith, List.cons.injEq]
      exact ⟨Nat.xor_cancel_right k b, ih ks (by simpa using hlen)⟩

theorem ctrXor_ctrXor (key nonce bs : List Nat) :
    ctrXor key nonce (ctrXor key nonce bs) = bs := by
  simp only [ctrXor, List.length_zipWith, length_keystream, Nat.min_self]
  exact zipWith_xor_cancel bs _ (by rw [length_keystream])

theorem length_gcmTag (key nonce c : List Nat) : (gcmTag key nonce c).length = 16 := by
  simp [gcmTag, length_natToBytes16]

theorem length_gcmSeal (key nonce pt : List Nat) :
    (gcmSeal key nonce pt).length = pt.length + 16 := by
  simp [gcmSeal, length_ctrXor, length_gcmTag]

/-- Opening a buffer sealed under the same key and nonce succeeds and leaves
the plaintext followed by the untouched tag. -/
theorem ringOpen_gcmSeal (key nonce pt : List Nat) (hmax : pt.length ≤ maxInputLen) :
    ringOpen key nonce (gcmSeal key nonce pt) =
      some (pt ++ gcmTag key nonce (ctrXor key nonce pt)) := by
  have hct : (ctrXor key nonce pt).length = pt.length := length_ctrXor key nonce pt
  have hlen : (gcmSeal key nonce pt).length = pt.length + 16 := length_gcmSeal key nonce pt
  unfold ringOpen
  rw [if_neg (by omega), if_neg (by omega)]
  have hsub : (gcmSeal key nonce pt).length - 16 = (ctrXor key nonce pt).length := by omega
  rw [hsub]
  unfold gcmSeal
  rw [List.take_left, List.drop_left, if_pos rfl, ctrXor_ctrXor]

/-- Dropping everything but the 16-byte suffix of a buffer that ends in a
16-byte tag yields exactly that tag. -/
theorem drop_append_tag (l t : List Nat) (ht : t.length = 16) :
    (l ++ t).drop ((l ++ t).length - TAG_LEN) = t := by
  have h : (l ++ t).length - TAG_LEN = l.length := by simp [TAG_LEN, ht]
  rw [h, List.drop_left]

/-- With a 32-byte key and an in-bounds plaintext, `encrypt_aes_256_gcm`
returns the sealed buffer together with the constant nonce `[12; 12]`,
whatever bytes the random source produced. -/
theorem encrypt_eq_ok (r key pt : List Nat) (hk : key.length = 32)
    (hmax : pt.length ≤ maxInputLen) :
    encrypt_aes_256_gcm (some r) key pt =
      Outcome.ok (gcmSeal key (List.replicate NONCE_LEN 12) pt, List.replicate NONCE_LEN 12) := by
  have h2 : ¬ pt.length > maxInputLen := by omega
  simp [encrypt_aes_256_gcm, ringSeal, hk, h2]

/-- Decrypting a buffer sealed by the embedded `encrypt_aes_256_gcm` with the
same key and nonce succeeds but returns the 16-byte tag (the `split_off`
result), not the plaintext. -/
theorem decrypt_gcmSeal_eq (key pt : List Nat) (hk : key.length = 32)
    (hmax : pt.length ≤ maxInputLen) :
    decrypt_aes_256_gcm key (List.replicate NONCE_LEN 12)
        (gcmSeal key (List.replicate NONCE_LEN 12) pt) =
      Outcome.ok (gcmTag key (List.replicate NONCE_LEN 12)
        (ctrXor key (List.replicate NONCE_LEN 12) pt)) := by
  unfold decrypt_aes_256_gcm
  rw [if_neg (by omega), if_neg (by simp [NONCE_LEN]), ringOpen_gcmSeal _ _ _ hmax]
  simp only [drop_append_tag _ _
    (length_gcmTag key (List.replicate NONCE_LEN 12) (ctrXor key (List.replicate NONCE_LEN 12) pt))]

/-- With a 32-byte key, `encrypt_aes_256_gcm` never panics: the assertion on
the key length is the only panic site. -/
theorem encrypt_ne_panicked (r : Option (List Nat)) (key pt : List Nat)
    (hk : key.length = 32) :
    encrypt_aes_256_gcm r key pt ≠ Outcome.panicked := by
  unfold encrypt_aes_256_gcm
  rw [if_neg (by omega)]
  rcases r with _ | r
  · exact fun h => Outcome.noConfusion h
  · rcases hs : ringSeal key (List.replicate NONCE_LEN 12) pt with _ | sealedBuf <;>
      simp only [hs] <;> exact fun h => Outcome.noConfusion h

/-- With a 32-byte key, `decrypt_aes_256_gcm` never panics. -/
theorem decrypt_ne_panicked (key nonce c : List Nat) (hk : key.length = 32) :
    decrypt_aes_256_gcm key nonce c ≠ Outcome.panicked := by
  unfold decrypt_aes_256_gcm
  rw [if_neg (by omega)]
  by_cases hn : nonce.length ≠ NONCE_LEN
  · rw [if_pos hn]; exact fun h => Outcome.noConfusion h
  · rw [if_neg hn]
    rcases ho : ringOpen key nonce c with _ | inOut <;>
      simp only [ho] <;> exact fun h => Outcome.noConfusion h

/-- A decryption call with a 32-byte key that does not return `ok` returns the
single error value. -/
theorem decrypt_failure_eq_error (key nonce c : List Nat) (hk : key.length = 32)
    (h : (decrypt_aes_256_gcm key nonce c).isOk = false) :
    decrypt_aes_256_gcm key nonce c = Outcome.error := by
  rcases hd : decrypt_aes_256_gcm key nonce c with _ | _ | pt
  · exact absurd hd (decrypt_ne_panicked key nonce c hk)
  · rfl
  · rw [hd] at h
    simp [Outcome.isOk] at h

/-! Claim theorems. -/

/-- C1: the round-trip claim fails on the code.  For every 32-byte key, every
random draw and every in-bounds plaintext whose length is not 16,
`encrypt_aes_256_gcm` succeeds, decrypting its output with the same key and
returned nonce also succeeds, but the value returned is not the original
plaintext (it is the 16-byte tag that `split_off` extracts). -/
theorem c1_round_trip_returns_tag_not_plaintext (r key pt : List Nat)
    (hk : key.length = 32) (hmax : pt.length ≤ maxInputLen) (hne : pt.length ≠ 16) :
    ∃ ct n out,
      encrypt_aes_256_gcm (some r) key pt = Outcome.ok (ct, n) ∧
      decrypt_aes_256_gcm key n ct = Outcome.ok out ∧ out ≠ pt := by
  refine ⟨gcmSeal key (List.replicate NONCE_LEN 12) pt, List.replicate NONCE_LEN 12,
    gcmTag key (List.replicate NONCE_LEN 12) (ctrXor key (List.replicate NONCE_LEN 12) pt),
    encrypt_eq_ok r key pt hk hmax, decrypt_gcmSeal_eq key pt hk hmax, ?_⟩
  intro he
  apply hne
  rw [← he]
  exact length_gcmTag key (List.replicate NONCE_LEN 12) (ctrXor key (List.replicate NONCE_LEN 12) pt)

/-- Witness for C1 at the spec's concrete scenario shape: a 32-byte key and
the 11-byte plaintext "hello world"; encryption succeeds, decryption of its
output succeeds, and the result differs from the plaintext. -/
theorem c1_round_trip_returns_tag_not_plaintext_witness :
    ∃ ct n out,
      encrypt_aes_256_gcm (some []) (List.replicate 32 0)
          [104, 101, 108, 108, 111, 32, 119, 111, 114, 108, 100] = Outcome.ok (ct, n) ∧
      decrypt_aes_256_gcm (List.replicate 32 0) n ct = Outcome.ok out ∧
      out ≠ [104, 101, 108, 108, 111, 32, 119, 111, 114, 108, 100] :=
  c1_round_trip_returns_tag_not_plaintext [] (List.replicate 32 0)
    [104, 101, 108, 108, 111, 32, 119, 111, 114, 108, 100]
    (by decide) (by decide) (by decide)

/-- C2: the nonce claim fails on the code.  Two encryption calls with the same
32-byte key and in-bounds plaintext but arbitrary (in particular different)
random draws both seal with and return the constant nonce `[12; 12]` — the
freshly drawn bytes are discarded. -/
theorem c2_nonce_is_constant_regardless_of_draw (r r' key pt : List Nat)
    (hk : key.length = 32) (hmax : pt.length ≤ maxInputLen) :
    ∃ ct ct',
      encrypt_aes_256_gcm (some r) key pt = Outcome.ok (ct, List.replicate NONCE_LEN 12) ∧
      encrypt_aes_256_gcm (some r') key pt = Outcome.ok (ct', List.replicate NONCE_LEN 12) :=
  ⟨_, _, encrypt_eq_ok r key pt hk hmax, encrypt_eq_ok r' key pt hk hmax⟩

/-- Witness for C2: two calls whose random draws are all-zero and all-255
bytes still both return the nonce `[12; 12]`. -/
theorem c2_nonce_is_constant_regardless_of_draw_witness :
    ∃ ct ct',
      encrypt_aes_256_gcm (some (List.replicate 12 0)) (List.replicate 32 0) [1, 2, 3] =
        Outcome.ok (ct, List.replicate NONCE_LEN 12) ∧
      encrypt_aes_256_gcm (some (List.replicate 12 255)) (List.replicate 32 0) [1, 2, 3] =
        Outcome.ok (ct', List.replicate NONCE_LEN 12) :=
  c2_nonce_is_constant_regardless_of_draw (List.replicate 12 0) (List.replicate 12 255)
    (List.replicate 32 0) [1, 2, 3] (by decide) (by decide)

/-- C4 counterexample: the claim that no input causes a panic is false — a
16-byte key makes `encrypt_aes_256_gcm` panic (the `assert_eq!` fails) and a
24-byte key makes `decrypt_aes_256_gcm` panic. -/
theorem c4_invalid_key_panics_counterexample :
    encrypt_aes_256_gcm (some (List.replicate 12 7)) (List.replicate 16 0) [1, 2, 3] =
      Outcome.panicked ∧
    decrypt_aes_256_gcm (List.replicate 24 0) (List.replicate 12 0) (List.replicate 20 0) =
      Outcome.panicked := by
  decide

/-- C4 amended: for 32-byte keys every failure of either operation is the
explicit `Err` result and neither operation panics; keys of invalid length
instead terminate by an assertion panic. -/
theorem c4_no_panic_for_valid_keys (r : Option (List Nat)) (key pt nonce c : List Nat)
    (hk : key.length = 32) :
    encrypt_aes_256_gcm r key pt ≠ Outcome.panicked ∧
    decrypt_aes_256_gcm key nonce c ≠ Outcome.panicked :=
  ⟨encrypt_ne_panicked r key pt hk, decrypt_ne_panicked key nonce c hk⟩

/-- Witness for the amended C4: with a 32-byte key neither operation panics,
even when the random fill fails and the other arguments are degenerate. -/
theorem c4_no_panic_for_valid_keys_witness :
    encrypt_aes_256_gcm none (List.replicate 32 0) [] ≠ Outcome.panicked ∧
    decrypt_aes_256_gcm (List.replicate 32 0) [] [] ≠ Outcome.panicked :=
  c4_no_panic_for_valid_keys none (List.replicate 32 0) [] [] [] (by decide)

/-- C5: for every 32-byte key and in-bounds plaintext, encryption succeeds and
returns the CTR-encrypted body with the 16-byte tag appended — total length
plaintext length + 16 — together with a 12-byte nonce. -/
theorem c5_ciphertext_is_body_append_tag (r key pt : List Nat)
    (hk : key.length = 32) (hmax : pt.length ≤ maxInputLen) :
    ∃ body tag n,
      encrypt_aes_256_gcm (some r) key pt = Outcome.ok (body ++ tag, n) ∧
      body.length = pt.length ∧ tag.length = 16 ∧ n.length = 12 ∧
      (body ++ tag).length = pt.length + 16 := by
  refine ⟨ctrXor key (List.replicate NONCE_LEN 12) pt,
    gcmTag key (List.replicate NONCE_LEN 12) (ctrXor key (List.replicate NONCE_LEN 12) pt),
    List.replicate NONCE_LEN 12, ?_, ?_, ?_, ?_, ?_⟩
  · exact encrypt_eq_ok r key pt hk hmax
  · exact length_ctrXor key (List.replicate NONCE_LEN 12) pt
  · exact length_gcmTag key (List.replicate NONCE_LEN 12) (ctrXor key (List.replicate NONCE_LEN 12) pt)
  · simp [NONCE_LEN]
  · simp [length_ctrXor, length_gcmTag]

/-- Witness for C5: an 11-byte plaintext yields a 27-byte ciphertext (11 body
bytes plus the 16-byte tag) and a 12-byte nonce. -/
theorem c5_ciphertext_is_body_append_tag_witness :
    ∃ body tag n,
      encrypt_aes_256_gcm (some []) (List.replicate 32 0)
          [104, 101, 108, 108, 111, 32, 119, 111, 114, 108, 100] = Outcome.ok (body ++ tag, n) ∧
      (body ++ tag).length = 27 ∧ n.length = 12 := by
  obtain ⟨body, tag, n, henc, _, _, hn, hlen⟩ :=
    c5_ciphertext_is_body_append_tag [] (List.replicate 32 0)
      [104, 101, 108, 108, 111, 32, 119, 111, 114, 108, 100] (by decide) (by decide)
  exact ⟨body, tag, n, henc, by simpa using hlen, hn⟩

/-- C6: for every key whose length is not 32 bytes, both operations hit the
failed assertion at once — the outcome is the panic, whatever the random
source argument, plaintext, nonce or ciphertext, so no nonce is drawn and no
seal or open is attempted. -/
theorem c6_invalid_key_length_panics (r : Option (List Nat)) (key pt nonce c : List Nat)
    (hk : key.length ≠ 32) :
    encrypt_aes_256_gcm r key pt = Outcome.panicked ∧
    decrypt_aes_256_gcm key nonce c = Outcome.panicked := by
  constructor
  · unfold encrypt_aes_256_gcm; rw [if_pos hk]
  · unfold decrypt_aes_256_gcm; rw [if_pos hk]

/-- Witness for C6 at keys of length 16 and of length 33. -/
theorem c6_invalid_key_length_panics_witness :
    (encrypt_aes_256_gcm (some (List.replicate 12 0)) (List.replicate 16 0) [1] =
        Outcome.panicked ∧
      decrypt_aes_256_gcm (List.replicate 16 0) (List.replicate 12 0) (List.replicate 20 0) =
        Outcome.panicked) ∧
    (encrypt_aes_256_gcm none (List.replicate 33 0) [] = Outcome.panicked ∧
      decrypt_aes_256_gcm (List.replicate 33 0) (List.replicate 12 0) [] = Outcome.panicked) :=
  ⟨c6_invalid_key_length_panics (some (List.replicate 12 0)) (List.replicate 16 0) [1]
      (List.replicate 12 0) (List.replicate 20 0) (by decide),
    c6_invalid_key_length_panics none (List.replicate 33 0) [] (List.replicate 12 0) []
      (by decide)⟩

/-- C7: for every 32-byte key, every ciphertext and every nonce whose length
is not 12 bytes, decryption returns the recoverable error result (not the
panic) without attempting the AEAD open. -/
theorem c7_invalid_nonce_length_error (key nonce c : List Nat)
    (hk : key.length = 32) (hn : nonce.length ≠ 12) :
    decrypt_aes_256_gcm key nonce c = Outcome.error := by
  unfold decrypt_aes_256_gcm
  rw [if_neg (by omega), if_pos (by simpa [NONCE_LEN] using hn)]

/-- Witness for C7: an 11-byte nonce is rejected with the error result. -/
theorem c7_invalid_nonce_length_error_witness :
    decrypt_aes_256_gcm (List.replicate 32 0) (List.replicate 11 0) (List.replicate 32 0) =
      Outcome.error :=
  c7_invalid_nonce_length_error (List.replicate 32 0) (List.replicate 11 0)
    (List.replicate 32 0) (by decide) (by decide)

/-- C8: for every 32-byte key, 12-byte nonce and ciphertext shorter than the
16-byte tag, the AEAD open fails up front and decryption returns the error
result, never reaching the tag-stripping subtraction. -/
theorem c8_short_ciphertext_error (key nonce c : List Nat)
    (hk : key.length = 32) (hn : nonce.length = 12) (hc : c.length < 16) :
    decrypt_aes_256_gcm key nonce c = Outcome.error := by
  unfold decrypt_aes_256_gcm ringOpen
  rw [if_neg (by omega), if_neg (by simp [NONCE_LEN, hn]), if_pos hc]

/-- Witness for C8: a 15-byte ciphertext is rejected with the error result. -/
theorem c8_short_ciphertext_error_witness :
    decrypt_aes_256_gcm (List.replicate 32 0) (List.replicate 12 0) (List.replicate 15 0) =
      Outcome.error :=
  c8_short_ciphertext_error (List.replicate 32 0) (List.replicate 12 0) (List.replicate 15 0)
    (by decide) (by decide) (by decide)

/-- C9: any two failing decryption calls with 32-byte keys — whatever the
sub-cause — return one and the same error value (ring's `Unspecified` is a
unit type, modelled by the single `error` constructor) and return no
plaintext bytes. -/
theorem c9_failing_decrypts_indistinguishable (k1 n1 c1 k2 n2 c2 : List Nat)
    (hk1 : k1.length = 32) (hk2 : k2.length = 32)
    (h1 : (decrypt_aes_256_gcm k1 n1 c1).isOk = false)
    (h2 : (decrypt_aes_256_gcm k2 n2 c2).isOk = false) :
    decrypt_aes_256_gcm k1 n1 c1 = Outcome.error ∧
    decrypt_aes_256_gcm k1 n1 c1 = decrypt_aes_256_gcm k2 n2 c2 := by
  have e1 := decrypt_failure_eq_error k1 n1 c1 hk1 h1
  have e2 := decrypt_failure_eq_error k2 n2 c2 hk2 h2
  exact ⟨e1, by rw [e1, e2]⟩

/-- Witness for C9: a truncated-ciphertext failure and a wrong-nonce-length
failure produce the same error value. -/
theorem c9_failing_decrypts_indistinguishable_witness :
    decrypt_aes_256_gcm (List.replicate 32 0) (List.replicate 12 0) (List.replicate 15 0) =
      Outcome.error ∧
    decrypt_aes_256_gcm (List.replicate 32 0) (List.replicate 12 0) (List.replicate 15 0) =
      decrypt_aes_256_gcm (List.replicate 32 1) (List.replicate 5 0) (List.replicate 16 0) :=
  c9_failing_decrypts_indistinguishable (List.replicate 32 0) (List.replicate 12 0)
    (List.replicate 15 0) (List.replicate 32 1) (List.replicate 5 0) (List.replicate 16 0)
    (by decide) (by decide) (by decide) (by decide)

/-- C10: whenever `decrypt_aes_256_gcm` succeeds, the returned byte vector is
exactly the trailing 16 bytes of the opened buffer — which are the untouched
tag bytes of the input ciphertext — so the successful output always has
length 16. -/
theorem c10_successful_decrypt_is_tag_suffix (key nonce c pt : List Nat)
    (h : decrypt_aes_256_gcm key nonce c = Outcome.ok pt) :
    pt = c.drop (c.length - 16) ∧ pt.length = 16 := by
  unfold decrypt_aes_256_gcm at h
  by_cases hk : key.length ≠ 32
  · rw [if_pos hk] at h; exact Outcome.noConfusion h
  · rw [if_neg hk] at h
    by_cases hn : nonce.length ≠ NONCE_LEN
    · rw [if_pos hn] at h; exact Outcome.noConfusion h
    · rw [if_neg hn] at h
      rcases ho : ringOpen key nonce c with _ | inOut
      · rw [ho] at h; exact Outcome.noConfusion h
      · rw [ho] at h
        injection h with hpt
        unfold ringOpen at ho
        simp only [] at ho
        by_cases h16 : c.length < 16
        · rw [if_pos h16] at ho; exact Option.noConfusion ho
        · rw [if_neg h16] at ho
          by_cases hbig : c.length - 16 > maxInputLen
          · rw [if_pos hbig] at ho; exact Option.noConfusion ho
          · rw [if_neg hbig] at ho
            by_cases htag :
                gcmTag key nonce (c.take (c.length - 16)) = c.drop (c.length - 16)
            · rw [if_pos htag] at ho
              injection ho with hio
              subst hio
              rw [← hpt]
              have hd : (c.drop (c.length - 16)).length = 16 := by
                rw [List.length_drop]; omega
              rw [drop_append_tag _ _ hd]
              exact ⟨rfl, hd⟩
            · rw [if_neg htag] at ho; exact Option.noConfusion ho

/-- Witness for C10 at a concrete successful decryption: the zero key, the
nonce `[12; 12]` and the 16-byte ciphertext that is the valid tag of the
empty plaintext; the returned vector is the whole 16-byte buffer. -/
theorem c10_successful_decrypt_is_tag_suffix_witness :
    ([211, 194, 86, 246, 253, 48, 174, 166, 253, 243, 228, 247, 113, 201, 169, 102] : List Nat) =
      ([211, 194, 86, 246, 253, 48, 174, 166, 253, 243, 228, 247, 113, 201, 169, 102] :
        List Nat).drop
        (([211, 194, 86, 246, 253, 48, 174, 166, 253, 243, 228, 247, 113, 201, 169,
          102] : List Nat).length - 16) ∧
    ([211, 194, 86, 246, 253, 48, 174, 166, 253, 243, 228, 247, 113, 201, 169, 102] :
      List Nat).length = 16 :=
  c10_successful_decrypt_is_tag_suffix (List.replicate 32 0) (List.replicate 12 12)
    [211, 194, 86, 246, 253, 48, 174, 166, 253, 243, 228, 247, 113, 201, 169, 102]
    [211, 194, 86, 246, 253, 48, 174, 166, 253, 243, 228, 247, 113, 201, 169, 102]
    (by decide)

end AesImpl
